import Mathlib

/-!
Shallow embedding of the character-physics and projectile core of the
hyzen-shooter-game repository, together with proofs of the spec claims.
JavaScript numbers are embedded as exact rationals; every constant below is
the exact rational value of the corresponding source constant.
-/

set_option linter.all false

/- Tuning constants, from PhysicsConstants.ts.  GRAVITY is -9.81 * 2.5. -/
namespace PHYSICS

def GRAVITY : ℚ := -(981/40)

def MAX_FALL_SPEED : ℚ := -20

def JUMP_FORCE : ℚ := 10

def JET_FORCE : ℚ := 30

def JET_MAX_VELOCITY : ℚ := 15

def FUEL_MAX : ℚ := 150

def FUEL_CONSUMPTION : ℚ := 15

def FUEL_RECHARGE : ℚ := 8

def GROUND_Y : ℚ := 0

end PHYSICS

/-- Three-component vector, embedding THREE.Vector3 coordinates. -/
structure Vec3 where
  x : ℚ
  y : ℚ
  z : ℚ
deriving DecidableEq, Repr

/-- Per-tick input intents passed to PhysicsBody.update; the optional `jet`
field of the source defaults to false when omitted. -/
structure PhysicsInput where
  jump : Bool
  jet : Bool
deriving DecidableEq, Repr

/-- State of one character physics body (IPhysicsState plus the private
`jumpPressed` member of the PhysicsBody class).  The source mirrors the
`jetActive` flag in both the state record and a private member, and every
write in `update` sets the two together, so the embedding keeps one field. -/
structure PhysicsBody where
  position : Vec3
  velocity : Vec3
  grounded : Bool
  jumpHoldTime : ℚ
  lastJumpTime : ℚ
  jumpBufferTime : ℚ
  jetActive : Bool
  fuel : ℚ
  isRecharging : Bool
  jumpPressed : Bool
deriving DecidableEq, Repr

/-- PhysicsBody constructor: caller-supplied position, zero velocity,
full fuel, not grounded. -/
def PhysicsBody.create (initialPosition : Vec3) : PhysicsBody :=
  { position := initialPosition
    velocity := ⟨0, 0, 0⟩
    grounded := false
    jumpHoldTime := 0
    lastJumpTime := 0
    jumpBufferTime := 0
    jetActive := false
    fuel := PHYSICS.FUEL_MAX
    isRecharging := false
    jumpPressed := false }

/-- Jump handling section of PhysicsBody.update: rising edge of `jump` while
grounded starts a jump; releasing the button clears the edge flag. -/
def jumpStep (b : PhysicsBody) (jump : Bool) : PhysicsBody :=
  if jump = true ∧ b.jumpPressed = false ∧ b.grounded = true then
    { b with velocity := { b.velocity with y := PHYSICS.JUMP_FORCE }
             grounded := false
             jumpPressed := true
             jumpHoldTime := 0 }
  else if jump = true ∧ b.jumpPressed = true then b
  else if jump = false then { b with jumpPressed := false }
  else b

/-- Effective jet force as computed inside the jet branch of update: the base
force, scaled by 1 + min(1, |vy| / |MAX_FALL_SPEED|) while falling. -/
def jetForceValue (vy : ℚ) : ℚ :=
  if vy < 0 then
    PHYSICS.JET_FORCE * (1 + min 1 (|vy| / |PHYSICS.MAX_FALL_SPEED|))
  else PHYSICS.JET_FORCE

/-- Jetpack section of PhysicsBody.update: thrust, velocity cap, air drag and
fuel consumption when jetting; otherwise the recharge state machine. -/
def jetStep (b : PhysicsBody) (deltaTime : ℚ) (jet : Bool) : PhysicsBody :=
  if jet = true ∧ 0 < b.fuel then
    let vy1 := b.velocity.y + jetForceValue b.velocity.y * deltaTime
    let vy2 := if PHYSICS.JET_MAX_VELOCITY < vy1 then PHYSICS.JET_MAX_VELOCITY else vy1
    let vx1 := if 0 < |b.velocity.x| then b.velocity.x * (19/20) else b.velocity.x
    { b with velocity := { b.velocity with x := vx1, y := vy2 }
             fuel := max 0 (b.fuel - PHYSICS.FUEL_CONSUMPTION * deltaTime)
             jetActive := true
             isRecharging := false }
  else
    let r :=
      if b.isRecharging = false ∧ b.fuel < PHYSICS.FUEL_MAX then
        if b.grounded = true ∨ PHYSICS.FUEL_MAX * (1/10) < b.fuel then true
        else b.isRecharging
      else b.isRecharging
    let fuel1 :=
      if r = true then
        min PHYSICS.FUEL_MAX
          (b.fuel +
            (if b.grounded = true then PHYSICS.FUEL_RECHARGE
             else PHYSICS.FUEL_RECHARGE * (1/4)) * deltaTime)
      else b.fuel
    { b with jetActive := false, isRecharging := r, fuel := fuel1 }

/-- Gravity section of PhysicsBody.update: accelerate downward, then clamp the
fall speed at MAX_FALL_SPEED. -/
def gravityStep (b : PhysicsBody) (deltaTime : ℚ) : PhysicsBody :=
  let vy1 := b.velocity.y + PHYSICS.GRAVITY * deltaTime
  let vy2 := if vy1 < PHYSICS.MAX_FALL_SPEED then PHYSICS.MAX_FALL_SPEED else vy1
  { b with velocity := { b.velocity with y := vy2 } }

/-- Position integration section of PhysicsBody.update. -/
def integrateStep (b : PhysicsBody) (deltaTime : ℚ) : PhysicsBody :=
  { b with position := { b.position with y := b.position.y + b.velocity.y * deltaTime } }

/-- Ground collision section of PhysicsBody.update: snap to the ground plane,
zero the vertical velocity and set grounded; otherwise clear grounded. -/
def groundStep (b : PhysicsBody) : PhysicsBody :=
  if b.position.y ≤ PHYSICS.GROUND_Y then
    { b with position := { b.position with y := PHYSICS.GROUND_Y }
             velocity := { b.velocity with y := 0 }
             grounded := true }
  else { b with grounded := false }

/-- Bookkeeping section of PhysicsBody.update: lastJumpTime tracks time since
leaving the ground. -/
def bookkeepStep (b : PhysicsBody) (deltaTime : ℚ) : PhysicsBody :=
  if b.grounded = true then { b with lastJumpTime := 0 }
  else { b with lastJumpTime := b.lastJumpTime + deltaTime }

/-- PhysicsBody.update: the sections of the source method applied in source
order (jump, jet, gravity, integration, ground collision, bookkeeping). -/
def PhysicsBody.update (b : PhysicsBody) (deltaTime : ℚ) (input : PhysicsInput) :
    PhysicsBody :=
  bookkeepStep
    (groundStep
      (integrateStep
        (gravityStep (jetStep (jumpStep b input.jump) deltaTime input.jet) deltaTime)
        deltaTime))
    deltaTime

/-- PhysicsBody.getFuelPercentage. -/
def PhysicsBody.getFuelPercentage (b : PhysicsBody) : ℚ :=
  b.fuel / PHYSICS.FUEL_MAX * 100

/-- PhysicsBody.setPosition: external override of the position; velocity and
the grounded flag are left untouched. -/
def PhysicsBody.setPosition (b : PhysicsBody) (p : Vec3) : PhysicsBody :=
  { b with position := p }

/-- One tick of driver input: the deltaTime and the input flags. -/
def stepBody (b : PhysicsBody) (s : ℚ × PhysicsInput) : PhysicsBody :=
  b.update s.1 s.2

/-- Running a whole input sequence through PhysicsBody.update. -/
def runBody (b : PhysicsBody) (steps : List (ℚ × PhysicsInput)) : PhysicsBody :=
  steps.foldl stepBody b

/-! ### Projection lemmas: which fields each update section leaves untouched -/

@[simp] lemma jumpStep_position (b : PhysicsBody) (j : Bool) :
    (jumpStep b j).position = b.position := by
  unfold jumpStep; split_ifs <;> rfl

@[simp] lemma jumpStep_fuel (b : PhysicsBody) (j : Bool) :
    (jumpStep b j).fuel = b.fuel := by
  unfold jumpStep; split_ifs <;> rfl

@[simp] lemma jumpStep_isRecharging (b : PhysicsBody) (j : Bool) :
    (jumpStep b j).isRecharging = b.isRecharging := by
  unfold jumpStep; split_ifs <;> rfl

@[simp] lemma jumpStep_jetActive (b : PhysicsBody) (j : Bool) :
    (jumpStep b j).jetActive = b.jetActive := by
  unfold jumpStep; split_ifs <;> rfl

@[simp] lemma jetStep_position (b : PhysicsBody) (dt : ℚ) (jet : Bool) :
    (jetStep b dt jet).position = b.position := by
  unfold jetStep; split_ifs <;> rfl

@[simp] lemma jetStep_grounded (b : PhysicsBody) (dt : ℚ) (jet : Bool) :
    (jetStep b dt jet).grounded = b.grounded := by
  unfold jetStep; split_ifs <;> rfl

@[simp] lemma gravityStep_position (b : PhysicsBody) (dt : ℚ) :
    (gravityStep b dt).position = b.position := rfl

@[simp] lemma gravityStep_grounded (b : PhysicsBody) (dt : ℚ) :
    (gravityStep b dt).grounded = b.grounded := rfl

@[simp] lemma gravityStep_fuel (b : PhysicsBody) (dt : ℚ) :
    (gravityStep b dt).fuel = b.fuel := rfl

@[simp] lemma gravityStep_isRecharging (b : PhysicsBody) (dt : ℚ) :
    (gravityStep b dt).isRecharging = b.isRecharging := rfl

@[simp] lemma gravityStep_jetActive (b : PhysicsBody) (dt : ℚ) :
    (gravityStep b dt).jetActive = b.jetActive := rfl

@[simp] lemma integrateStep_velocity (b : PhysicsBody) (dt : ℚ) :
    (integrateStep b dt).velocity = b.velocity := rfl

@[simp] lemma integrateStep_grounded (b : PhysicsBody) (dt : ℚ) :
    (integrateStep b dt).grounded = b.grounded := rfl

@[simp] lemma integrateStep_fuel (b : PhysicsBody) (dt : ℚ) :
    (integrateStep b dt).fuel = b.fuel := rfl

@[simp] lemma integrateStep_isRecharging (b : PhysicsBody) (dt : ℚ) :
    (integrateStep b dt).isRecharging = b.isRecharging := rfl

@[simp] lemma integrateStep_jetActive (b : PhysicsBody) (dt : ℚ) :
    (integrateStep b dt).jetActive = b.jetActive := rfl

@[simp] lemma groundStep_fuel (b : PhysicsBody) :
    (groundStep b).fuel = b.fuel := by
  unfold groundStep; split_ifs <;> rfl

@[simp] lemma groundStep_isRecharging (b : PhysicsBody) :
    (groundStep b).isRecharging = b.isRecharging := by
  unfold groundStep; split_ifs <;> rfl

@[simp] lemma groundStep_jetActive (b : PhysicsBody) :
    (groundStep b).jetActive = b.jetActive := by
  unfold groundStep; split_ifs <;> rfl

@[simp] lemma bookkeepStep_position (b : PhysicsBody) (dt : ℚ) :
    (bookkeepStep b dt).position = b.position := by
  unfold bookkeepStep; split_ifs <;> rfl

@[simp] lemma bookkeepStep_velocity (b : PhysicsBody) (dt : ℚ) :
    (bookkeepStep b dt).velocity = b.velocity := by
  unfold bookkeepStep; split_ifs <;> rfl

@[simp] lemma bookkeepStep_grounded (b : PhysicsBody) (dt : ℚ) :
    (bookkeepStep b dt).grounded = b.grounded := by
  unfold bookkeepStep; split_ifs <;> rfl

@[simp] lemma bookkeepStep_fuel (b : PhysicsBody) (dt : ℚ) :
    (bookkeepStep b dt).fuel = b.fuel := by
  unfold bookkeepStep; split_ifs <;> rfl

@[simp] lemma bookkeepStep_isRecharging (b : PhysicsBody) (dt : ℚ) :
    (bookkeepStep b dt).isRecharging = b.isRecharging := by
  unfold bookkeepStep; split_ifs <;> rfl

@[simp] lemma bookkeepStep_jetActive (b : PhysicsBody) (dt : ℚ) :
    (bookkeepStep b dt).jetActive = b.jetActive := by
  unfold bookkeepStep; split_ifs <;> rfl

/-! ### Ground clamp invariant -/

/-- Post-tick ground invariant of the spec: the body never sinks below the
ground plane, and the grounded flag holds exactly on ground contact with zero
vertical velocity. -/
def GroundInv (b : PhysicsBody) : Prop :=
  PHYSICS.GROUND_Y ≤ b.position.y ∧
    (b.grounded = true ↔ b.position.y = PHYSICS.GROUND_Y ∧ b.velocity.y = 0)

lemma groundStep_groundInv (b : PhysicsBody) : GroundInv (groundStep b) := by
  unfold GroundInv groundStep
  split_ifs with h
  · exact ⟨le_refl _, by simp⟩
  · refine ⟨le_of_not_le h, ?_⟩
    simp only [Bool.false_eq_true, false_iff, not_and]
    intro hy
    exact absurd hy (by intro hy; exact h (le_of_eq hy))

lemma update_groundInv (b : PhysicsBody) (dt : ℚ) (input : PhysicsInput) :
    GroundInv (b.update dt input) := by
  unfold PhysicsBody.update
  have h := groundStep_groundInv
    (integrateStep (gravityStep (jetStep (jumpStep b input.jump) dt input.jet) dt) dt)
  unfold GroundInv at h ⊢
  simpa using h

lemma runBody_concat (b : PhysicsBody) (steps : List (ℚ × PhysicsInput))
    (s : ℚ × PhysicsInput) :
    runBody b (steps ++ [s]) = stepBody (runBody b steps) s := by
  unfold runBody
  simp [List.foldl_append]

/-- C1: after every update tick (any positive deltaTime, no setPosition calls
interleaved), the body sits at or above the ground plane, and the grounded
flag holds exactly when the body rests on the plane with zero vertical
velocity. -/
theorem groundClamp_after_ticks (b : PhysicsBody) (steps : List (ℚ × PhysicsInput))
    (hne : steps ≠ []) (hdt : ∀ s ∈ steps, 0 < s.1) :
    GroundInv (runBody b steps) := by
  rcases (List.eq_nil_or_concat steps) with h | ⟨L, s, rfl⟩
  · exact absurd h hne
  · rw [List.concat_eq_append, runBody_concat]
    exact update_groundInv _ _ _

/-- Witness for C1 at a concrete one-tick run. -/
theorem groundClamp_after_ticks_w :
    ([((1:ℚ)/60, (⟨false, false⟩ : PhysicsInput))] ≠ []) ∧
      GroundInv (runBody (PhysicsBody.create ⟨0, 5, 0⟩)
        [((1:ℚ)/60, ⟨false, false⟩)]) :=
  ⟨by simp,
   groundClamp_after_ticks (PhysicsBody.create ⟨0, 5, 0⟩)
     [((1:ℚ)/60, ⟨false, false⟩)] (by simp) (by intro s hs; simp at hs; rw [hs]; norm_num)⟩

/-! ### Fuel bounds -/

/-- Fuel stays within the tank bounds. -/
def FuelInv (b : PhysicsBody) : Prop :=
  0 ≤ b.fuel ∧ b.fuel ≤ PHYSICS.FUEL_MAX

lemma jetStep_fuelInv (b : PhysicsBody) (dt : ℚ) (jet : Bool)
    (h : FuelInv b) (hdt : 0 ≤ dt) : FuelInv (jetStep b dt jet) := by
  obtain ⟨h0, h1⟩ := h
  have hc : (0:ℚ) ≤ PHYSICS.FUEL_CONSUMPTION * dt := by
    have : (0:ℚ) ≤ PHYSICS.FUEL_CONSUMPTION := by norm_num [PHYSICS.FUEL_CONSUMPTION]
    positivity
  have hmax : (0:ℚ) ≤ PHYSICS.FUEL_MAX := by norm_num [PHYSICS.FUEL_MAX]
  have hrg : (0:ℚ) ≤ PHYSICS.FUEL_RECHARGE * dt := by
    have : (0:ℚ) ≤ PHYSICS.FUEL_RECHARGE := by norm_num [PHYSICS.FUEL_RECHARGE]
    positivity
  have hrg4 : (0:ℚ) ≤ PHYSICS.FUEL_RECHARGE * (1/4) * dt := by
    have : (0:ℚ) ≤ PHYSICS.FUEL_RECHARGE * (1/4) := by norm_num [PHYSICS.FUEL_RECHARGE]
    positivity
  by_cases hjet : jet = true ∧ 0 < b.fuel
  · rw [FuelInv, jetStep, if_pos hjet]
    dsimp only
    exact ⟨le_max_left _ _, max_le hmax (by linarith)⟩
  · rw [FuelInv, jetStep, if_neg hjet]
    dsimp only
    split_ifs <;>
      refine ⟨?_, ?_⟩ <;>
      first
        | exact h0
        | exact h1
        | exact le_min hmax (by linarith)
        | exact min_le_left _ _

lemma update_fuelInv (b : PhysicsBody) (dt : ℚ) (input : PhysicsInput)
    (h : FuelInv b) (hdt : 0 ≤ dt) : FuelInv (b.update dt input) := by
  unfold PhysicsBody.update
  unfold FuelInv
  simp only [bookkeepStep_fuel, groundStep_fuel, integrateStep_fuel, gravityStep_fuel]
  have hj : FuelInv (jumpStep b input.jump) := by
    unfold FuelInv; simp only [jumpStep_fuel]; exact h
  exact jetStep_fuelInv (jumpStep b input.jump) dt input.jet hj hdt

lemma runBody_fuelInv (b : PhysicsBody) (steps : List (ℚ × PhysicsInput))
    (h : FuelInv b) (hdt : ∀ s ∈ steps, 0 ≤ s.1) :
    FuelInv (runBody b steps) := by
  induction steps generalizing b with
  | nil => exact h
  | cons s rest ih =>
      have h1 : FuelInv (stepBody b s) :=
        update_fuelInv b s.1 s.2 h (hdt s (by simp))
      exact ih (stepBody b s) h1 (fun t ht => hdt t (by simp [ht]))

/-- C2: starting from the constructor state (full tank), fuel stays in
[0, FUEL_MAX] after every tick with non-negative deltaTime, and the fuel
percentage accessor therefore stays in [0, 100]. -/
theorem fuel_bounds_after_ticks (p : Vec3) (steps : List (ℚ × PhysicsInput))
    (hdt : ∀ s ∈ steps, 0 ≤ s.1) :
    FuelInv (runBody (PhysicsBody.create p) steps) ∧
      0 ≤ (runBody (PhysicsBody.create p) steps).getFuelPercentage ∧
      (runBody (PhysicsBody.create p) steps).getFuelPercentage ≤ 100 := by
  have h0 : FuelInv (PhysicsBody.create p) := by
    unfold FuelInv PhysicsBody.create
    norm_num [PHYSICS.FUEL_MAX]
  have hinv := runBody_fuelInv (PhysicsBody.create p) steps h0 hdt
  refine ⟨hinv, ?_, ?_⟩
  · obtain ⟨ha, _⟩ := hinv
    unfold PhysicsBody.getFuelPercentage
    have : (runBody (PhysicsBody.create p) steps).fuel / PHYSICS.FUEL_MAX * 100 =
        (runBody (PhysicsBody.create p) steps).fuel * (2/3) := by
      norm_num [PHYSICS.FUEL_MAX]; ring
    rw [this]; linarith
  · obtain ⟨_, hb⟩ := hinv
    unfold PhysicsBody.getFuelPercentage
    have : (runBody (PhysicsBody.create p) steps).fuel / PHYSICS.FUEL_MAX * 100 =
        (runBody (PhysicsBody.create p) steps).fuel * (2/3) := by
      norm_num [PHYSICS.FUEL_MAX]; ring
    rw [this]
    have : (runBody (PhysicsBody.create p) steps).fuel ≤ 150 := by
      simpa [PHYSICS.FUEL_MAX] using hb
    linarith

/-- Witness for C2 at a concrete two-tick run using the jetpack. -/
theorem fuel_bounds_after_ticks_w :
    FuelInv (runBody (PhysicsBody.create ⟨0, 3, 0⟩)
        [((1:ℚ)/60, ⟨false, true⟩), ((1:ℚ)/60, ⟨false, false⟩)]) ∧
      0 ≤ (runBody (PhysicsBody.create ⟨0, 3, 0⟩)
        [((1:ℚ)/60, ⟨false, true⟩), ((1:ℚ)/60, ⟨false, false⟩)]).getFuelPercentage ∧
      (runBody (PhysicsBody.create ⟨0, 3, 0⟩)
        [((1:ℚ)/60, ⟨false, true⟩), ((1:ℚ)/60, ⟨false, false⟩)]).getFuelPercentage ≤ 100 :=
  fuel_bounds_after_ticks ⟨0, 3, 0⟩ _
    (by intro s hs; simp at hs; rcases hs with h | h <;> rw [h] <;> norm_num)

/-! ### The grounded-consistency predicate and setPosition -/

/-- The one-way grounded consistency predicate of the spec data model:
grounded implies resting on the ground plane with zero vertical velocity. -/
def GroundedConsistent (b : PhysicsBody) : Prop :=
  b.grounded = true → b.position.y = PHYSICS.GROUND_Y ∧ b.velocity.y = 0

/-- A concrete grounded body at rest on the ground plane with full fuel. -/
def g0 : PhysicsBody :=
  { position := ⟨0, 0, 0⟩
    velocity := ⟨0, 0, 0⟩
    grounded := true
    jumpHoldTime := 0
    lastJumpTime := 0
    jumpBufferTime := 0
    jetActive := false
    fuel := PHYSICS.FUEL_MAX
    isRecharging := false
    jumpPressed := false }

/-- Counterexample to C3: setPosition with a raised position keeps the
grounded flag, so the grounded-consistency predicate is not preserved. -/
theorem setPosition_breaks_groundedConsistent :
    GroundedConsistent g0 ∧
      ¬ GroundedConsistent (g0.setPosition ⟨0, 5, 0⟩) := by
  constructor
  · intro _; exact ⟨rfl, rfl⟩
  · intro h
    have h5 := (h rfl).1
    norm_num [g0, PhysicsBody.setPosition, PHYSICS.GROUND_Y] at h5

/-- C3 amended: the grounded-consistency predicate holds after every update
call from any prior state; setPosition preserves it exactly when the body is
not grounded or the overriding position still has ground-plane height. -/
theorem groundedConsistent_preservation :
    (∀ (b : PhysicsBody) (dt : ℚ) (input : PhysicsInput),
        GroundedConsistent (b.update dt input)) ∧
    (∀ (b : PhysicsBody) (p : Vec3),
        GroundedConsistent b →
        (b.grounded = true → p.y = PHYSICS.GROUND_Y) →
        GroundedConsistent (b.setPosition p)) := by
  constructor
  · intro b dt input
    have h := update_groundInv b dt input
    intro hg
    exact (h.2).1 hg
  · intro b p hb hp
    intro hg
    have hg0 : b.grounded = true := by simpa [PhysicsBody.setPosition] using hg
    refine ⟨?_, ?_⟩
    · simpa [PhysicsBody.setPosition] using hp hg0
    · simpa [PhysicsBody.setPosition] using (hb hg0).2

/-- Witness for the amended C3: both preservation parts applied at concrete
inputs. -/
theorem groundedConsistent_preservation_w :
    GroundedConsistent (PhysicsBody.update g0 ((1:ℚ)/60) ⟨false, false⟩) ∧
      GroundedConsistent (g0.setPosition ⟨3, 0, 7⟩) :=
  ⟨groundedConsistent_preservation.1 g0 ((1:ℚ)/60) ⟨false, false⟩,
   groundedConsistent_preservation.2 g0 ⟨3, 0, 7⟩
     (fun _ => ⟨rfl, rfl⟩) (fun _ => rfl)⟩

/-! ### Jump tick -/

lemma jetStep_noJet_velocity (b : PhysicsBody) (dt : ℚ) :
    (jetStep b dt false).velocity = b.velocity := by
  rw [jetStep, if_neg (by simp)]

lemma gravityStep_velocity_y (b : PhysicsBody) (dt : ℚ) :
    (gravityStep b dt).velocity.y =
      if b.velocity.y + PHYSICS.GRAVITY * dt < PHYSICS.MAX_FALL_SPEED then
        PHYSICS.MAX_FALL_SPEED
      else b.velocity.y + PHYSICS.GRAVITY * dt := rfl

lemma integrateStep_position_y (b : PhysicsBody) (dt : ℚ) :
    (integrateStep b dt).position.y = b.position.y + b.velocity.y * dt := rfl

lemma groundStep_airborne (b : PhysicsBody) (h : ¬ b.position.y ≤ PHYSICS.GROUND_Y) :
    groundStep b = { b with grounded := false } := by
  rw [groundStep, if_neg h]

/-- Counterexample to C4: from a grounded rest state, a single jump tick with
deltaTime = 1 second re-enters the ground in the same tick, so the tick ends
grounded with zero vertical velocity, not airborne with jumpForce plus
gravity times dt. -/
theorem jump_large_dt_relands :
    (PhysicsBody.update g0 1 ⟨true, false⟩).grounded = true ∧
      (PhysicsBody.update g0 1 ⟨true, false⟩).velocity.y ≠
        PHYSICS.JUMP_FORCE + PHYSICS.GRAVITY * 1 := by
  constructor <;>
    norm_num [PhysicsBody.update, jumpStep, jetStep, gravityStep, integrateStep,
      groundStep, bookkeepStep, g0, jetForceValue, PHYSICS.JUMP_FORCE,
      PHYSICS.GRAVITY, PHYSICS.MAX_FALL_SPEED, PHYSICS.GROUND_Y, PHYSICS.FUEL_MAX,
      PHYSICS.FUEL_CONSUMPTION, PHYSICS.FUEL_RECHARGE, PHYSICS.JET_FORCE,
      PHYSICS.JET_MAX_VELOCITY]

/-- C4 amended: from a grounded rest state with the jump button not already
held, a single tick with jump pressed and no jet ends with
velocity.y = jumpForce + gravity * dt and grounded = false, provided
0 < dt and dt * |gravity| < jumpForce (so that the jump arc does not land
again inside the very same tick; for dt ≥ jumpForce / |gravity|, about
0.4077 s, the tick re-lands and re-grounds the body). -/
theorem jump_tick_small_dt (b : PhysicsBody) (dt : ℚ)
    (hg : b.grounded = true) (hv : b.velocity = ⟨0, 0, 0⟩)
    (hjp : b.jumpPressed = false) (hy : b.position.y = PHYSICS.GROUND_Y)
    (h0 : 0 < dt) (hs : dt * (-PHYSICS.GRAVITY) < PHYSICS.JUMP_FORCE) :
    (b.update dt ⟨true, false⟩).velocity.y =
        PHYSICS.JUMP_FORCE + PHYSICS.GRAVITY * dt ∧
      (b.update dt ⟨true, false⟩).grounded = false := by
  have e1 : jumpStep b true =
      { b with velocity := { b.velocity with y := PHYSICS.JUMP_FORCE }
               grounded := false
               jumpPressed := true
               jumpHoldTime := 0 } := by
    rw [jumpStep, if_pos ⟨rfl, hjp, hg⟩]
  have hvy_pos : 0 < PHYSICS.JUMP_FORCE + PHYSICS.GRAVITY * dt := by
    have : dt * (-PHYSICS.GRAVITY) = -(PHYSICS.GRAVITY * dt) := by ring
    rw [this] at hs
    linarith
  have hnoclamp :
      ¬ PHYSICS.JUMP_FORCE + PHYSICS.GRAVITY * dt < PHYSICS.MAX_FALL_SPEED := by
    have : PHYSICS.MAX_FALL_SPEED < 0 := by norm_num [PHYSICS.MAX_FALL_SPEED]
    linarith
  have hvel2 :
      (gravityStep (jetStep (jumpStep b true) dt false) dt).velocity.y =
        PHYSICS.JUMP_FORCE + PHYSICS.GRAVITY * dt := by
    rw [gravityStep_velocity_y, jetStep_noJet_velocity, e1]
    exact if_neg hnoclamp
  have hpos3 :
      (integrateStep (gravityStep (jetStep (jumpStep b true) dt false) dt) dt).position.y =
        PHYSICS.GROUND_Y + (PHYSICS.JUMP_FORCE + PHYSICS.GRAVITY * dt) * dt := by
    rw [integrateStep_position_y, hvel2]
    rw [gravityStep_position, jetStep_position, jumpStep_position, hy]
  have hair :
      ¬ (integrateStep (gravityStep (jetStep (jumpStep b true) dt false) dt) dt).position.y ≤
        PHYSICS.GROUND_Y := by
    rw [hpos3]
    have := mul_pos hvy_pos h0
    norm_num [PHYSICS.GROUND_Y]
    linarith
  show (PhysicsBody.update b dt ⟨true, false⟩).velocity.y = _ ∧
    (PhysicsBody.update b dt ⟨true, false⟩).grounded = false
  unfold PhysicsBody.update
  show (bookkeepStep (groundStep (integrateStep (gravityStep
      (jetStep (jumpStep b true) dt false) dt) dt)) dt).velocity.y = _ ∧
    (bookkeepStep (groundStep (integrateStep (gravityStep
      (jetStep (jumpStep b true) dt false) dt) dt)) dt).grounded = false
  rw [groundStep_airborne _ hair]
  constructor
  · rw [bookkeepStep_velocity]
    show (integrateStep (gravityStep (jetStep (jumpStep b true) dt false) dt) dt).velocity.y = _
    rw [integrateStep_velocity]
    exact hvel2
  · rw [bookkeepStep_grounded]

/-- Witness for the amended C4 at dt = 1/60. -/
theorem jump_tick_small_dt_w :
    (PhysicsBody.update g0 ((1:ℚ)/60) ⟨true, false⟩).velocity.y =
        PHYSICS.JUMP_FORCE + PHYSICS.GRAVITY * ((1:ℚ)/60) ∧
      (PhysicsBody.update g0 ((1:ℚ)/60) ⟨true, false⟩).grounded = false :=
  jump_tick_small_dt g0 ((1:ℚ)/60) rfl rfl rfl rfl (by norm_num)
    (by norm_num [PHYSICS.GRAVITY, PHYSICS.JUMP_FORCE])

/-! ### Jet recovery boost -/

lemma jetStep_jet_velocity_y (b : PhysicsBody) (dt : ℚ) (hf : 0 < b.fuel) :
    (jetStep b dt true).velocity.y =
      if PHYSICS.JET_MAX_VELOCITY < b.velocity.y + jetForceValue b.velocity.y * dt
      then PHYSICS.JET_MAX_VELOCITY
      else b.velocity.y + jetForceValue b.velocity.y * dt := by
  rw [jetStep, if_pos ⟨rfl, hf⟩]

lemma jetForceValue_ge (vy : ℚ) : PHYSICS.JET_FORCE ≤ jetForceValue vy := by
  unfold jetForceValue
  split_ifs with h
  · have hm : (0:ℚ) ≤ min 1 (|vy| / |PHYSICS.MAX_FALL_SPEED|) := by
      refine le_min (by norm_num) ?_
      positivity
    have hJ : (0:ℚ) < PHYSICS.JET_FORCE := by norm_num [PHYSICS.JET_FORCE]
    nlinarith [hm, hJ]
  · exact le_refl _

lemma jetForceValue_ascending (vy : ℚ) (h : 0 ≤ vy) :
    jetForceValue vy = PHYSICS.JET_FORCE := by
  unfold jetForceValue
  rw [if_neg (not_lt.mpr h)]

/-- C5: with the jet held, the same fuel and the same positive deltaTime, the
vertical-velocity increment granted by the jet section while falling is at
least the increment granted while ascending or at rest, and the effective jet
force while falling scales linearly with the fall speed, from one jetForce at
rest up to (and capped at) twice jetForce at the maximum fall speed. -/
theorem jet_recovery_boost (bf ba : PhysicsBody) (dt : ℚ)
    (hdt : 0 < dt) (hfall : bf.velocity.y < 0) (hasc : 0 ≤ ba.velocity.y)
    (hffuel : 0 < bf.fuel) (hafuel : 0 < ba.fuel) :
    ((jetStep ba dt true).velocity.y - ba.velocity.y ≤
        (jetStep bf dt true).velocity.y - bf.velocity.y) ∧
      (PHYSICS.MAX_FALL_SPEED ≤ bf.velocity.y →
        jetForceValue bf.velocity.y =
          PHYSICS.JET_FORCE * (1 - bf.velocity.y / 20)) ∧
      jetForceValue bf.velocity.y ≤ 2 * PHYSICS.JET_FORCE ∧
      PHYSICS.JET_FORCE ≤ jetForceValue bf.velocity.y ∧
      jetForceValue PHYSICS.MAX_FALL_SPEED = 2 * PHYSICS.JET_FORCE := by
  refine ⟨?_, ?_, ?_, jetForceValue_ge _, ?_⟩
  · rw [jetStep_jet_velocity_y bf dt hffuel, jetStep_jet_velocity_y ba dt hafuel,
      jetForceValue_ascending ba.velocity.y hasc]
    have hFf : PHYSICS.JET_FORCE ≤ jetForceValue bf.velocity.y :=
      jetForceValue_ge bf.velocity.y
    have h30 : PHYSICS.JET_FORCE * dt ≤ jetForceValue bf.velocity.y * dt := by
      nlinarith
    split_ifs with h1 h2 h2 <;> linarith
  · intro hmf
    unfold jetForceValue
    rw [if_pos hfall, abs_of_neg hfall]
    have h20 : |PHYSICS.MAX_FALL_SPEED| = 20 := by
      norm_num [PHYSICS.MAX_FALL_SPEED]
    rw [h20]
    have hle : -bf.velocity.y / 20 ≤ 1 := by
      have : (-20:ℚ) ≤ bf.velocity.y := by
        simpa [PHYSICS.MAX_FALL_SPEED] using hmf
      linarith
    rw [min_eq_right hle]
    ring
  · unfold jetForceValue
    rw [if_pos hfall]
    have hm : min 1 (|bf.velocity.y| / |PHYSICS.MAX_FALL_SPEED|) ≤ 1 :=
      min_le_left _ _
    have hJ : (0:ℚ) < PHYSICS.JET_FORCE := by norm_num [PHYSICS.JET_FORCE]
    nlinarith [hm, hJ]
  · norm_num [jetForceValue, PHYSICS.MAX_FALL_SPEED, PHYSICS.JET_FORCE]

/-- Witness for C5: a body falling at 10 units per second against a body at
rest, both with a full tank, at dt = 1/60. -/
theorem jet_recovery_boost_w :
    ((jetStep g0 ((1:ℚ)/60) true).velocity.y - g0.velocity.y ≤
        (jetStep { g0 with velocity := ⟨0, -10, 0⟩ } ((1:ℚ)/60) true).velocity.y -
          ({ g0 with velocity := ⟨0, -10, 0⟩ } : PhysicsBody).velocity.y) ∧
      jetForceValue ({ g0 with velocity := ⟨0, -10, 0⟩ } : PhysicsBody).velocity.y =
        PHYSICS.JET_FORCE *
          (1 - ({ g0 with velocity := ⟨0, -10, 0⟩ } : PhysicsBody).velocity.y / 20) := by
  have h := jet_recovery_boost { g0 with velocity := ⟨0, -10, 0⟩ } g0 ((1:ℚ)/60)
    (by norm_num) (by norm_num [g0]) (by norm_num [g0])
    (by norm_num [g0, PHYSICS.FUEL_MAX]) (by norm_num [g0, PHYSICS.FUEL_MAX])
  exact ⟨h.1, h.2.1 (by norm_num [g0, PHYSICS.MAX_FALL_SPEED])⟩

/-! ### Recharge state machine -/

lemma jetStep_noJet_jetActive (b : PhysicsBody) (dt : ℚ) (jet : Bool)
    (h : ¬ (jet = true ∧ 0 < b.fuel)) :
    (jetStep b dt jet).jetActive = false := by
  rw [jetStep, if_neg h]

lemma jetStep_noJet_isRecharging (b : PhysicsBody) (dt : ℚ) (jet : Bool)
    (h : ¬ (jet = true ∧ 0 < b.fuel)) :
    ((jetStep b dt jet).isRecharging = true ↔
      (b.isRecharging = true ∨
        (b.fuel < PHYSICS.FUEL_MAX ∧
          (b.grounded = true ∨ PHYSICS.FUEL_MAX * (1/10) < b.fuel)))) := by
  by_cases hrec : b.isRecharging = true
  · rw [jetStep, if_neg h]
    dsimp only
    rw [if_neg (by simp [hrec])]
    simp [hrec]
  · have hrec0 : b.isRecharging = false := by simpa using hrec
    rw [jetStep, if_neg h]
    dsimp only
    by_cases hfm : b.fuel < PHYSICS.FUEL_MAX
    · by_cases hc : b.grounded = true ∨ PHYSICS.FUEL_MAX * (1/10) < b.fuel
      · rw [if_pos ⟨hrec0, hfm⟩, if_pos hc]
        simp only [hrec0, hfm, true_iff, Bool.false_eq_true, false_or, true_and]
        simpa using hc
      · rw [if_pos ⟨hrec0, hfm⟩, if_neg hc]
        push_neg at hc
        simp only [hrec0, Bool.false_eq_true, false_iff, false_or, not_and,
          not_or]
        intro _
        exact ⟨by simpa using hc.1, by simpa using hc.2⟩
    · rw [if_neg (by rintro ⟨_, hh⟩; exact hfm hh)]
      simp [hrec0, hfm]

lemma jetStep_noJet_fuel (b : PhysicsBody) (dt : ℚ) (jet : Bool)
    (h : ¬ (jet = true ∧ 0 < b.fuel)) :
    (jetStep b dt jet).fuel =
      if (jetStep b dt jet).isRecharging = true then
        min PHYSICS.FUEL_MAX
          (b.fuel +
            (if b.grounded = true then PHYSICS.FUEL_RECHARGE
             else PHYSICS.FUEL_RECHARGE * (1/4)) * dt)
      else b.fuel := by
  rw [jetStep, if_neg h]

/-- C6: in a tick where the jet is not requested or the tank is empty, the
jet flag ends false; recharging begins exactly on ticks where it was not
already on, the tank is below max, and the body is grounded (as seen by the
jet section, after jump handling) or fuel is above ten percent of max; and
while recharging, fuel rises by the recharge rate times dt, clamped at max,
at full rate on the ground and quarter rate in the air. -/
theorem recharge_state_machine (b : PhysicsBody) (dt : ℚ) (input : PhysicsInput)
    (h : input.jet = false ∨ b.fuel = 0) :
    (b.update dt input).jetActive = false ∧
      ((b.update dt input).isRecharging = true ∧ b.isRecharging = false ↔
        b.isRecharging = false ∧ b.fuel < PHYSICS.FUEL_MAX ∧
          ((jumpStep b input.jump).grounded = true ∨
            PHYSICS.FUEL_MAX * (1/10) < b.fuel)) ∧
      ((b.update dt input).isRecharging = true →
        (b.update dt input).fuel =
          min PHYSICS.FUEL_MAX
            (b.fuel +
              (if (jumpStep b input.jump).grounded = true then PHYSICS.FUEL_RECHARGE
               else PHYSICS.FUEL_RECHARGE * (1/4)) * dt)) := by
  have hcond : ¬ (input.jet = true ∧ 0 < (jumpStep b input.jump).fuel) := by
    rcases h with h | h
    · rintro ⟨hj, _⟩
      rw [h] at hj
      exact Bool.false_ne_true hj
    · rintro ⟨_, hf⟩
      rw [jumpStep_fuel, h] at hf
      exact lt_irrefl 0 hf
  have hja : (b.update dt input).jetActive =
      (jetStep (jumpStep b input.jump) dt input.jet).jetActive := by
    unfold PhysicsBody.update
    simp only [bookkeepStep_jetActive, groundStep_jetActive,
      integrateStep_jetActive, gravityStep_jetActive]
  have hir : (b.update dt input).isRecharging =
      (jetStep (jumpStep b input.jump) dt input.jet).isRecharging := by
    unfold PhysicsBody.update
    simp only [bookkeepStep_isRecharging, groundStep_isRecharging,
      integrateStep_isRecharging, gravityStep_isRecharging]
  have hfu : (b.update dt input).fuel =
      (jetStep (jumpStep b input.jump) dt input.jet).fuel := by
    unfold PhysicsBody.update
    simp only [bookkeepStep_fuel, groundStep_fuel,
      integrateStep_fuel, gravityStep_fuel]
  refine ⟨?_, ?_, ?_⟩
  · rw [hja]
    exact jetStep_noJet_jetActive _ dt input.jet hcond
  · rw [hir]
    have hch := jetStep_noJet_isRecharging (jumpStep b input.jump) dt input.jet hcond
    rw [jumpStep_isRecharging, jumpStep_fuel] at hch
    rw [hch]
    by_cases hb : b.isRecharging = true
    · simp [hb]
    · simp only [Bool.not_eq_true] at hb
      simp [hb]
  · intro hrec
    rw [hfu]
    have hfe := jetStep_noJet_fuel (jumpStep b input.jump) dt input.jet hcond
    rw [jumpStep_fuel] at hfe
    rw [hfe, if_pos (by rw [← hir]; exact hrec)]

/-- Witness for C6: idle tick on the ground with a partially empty tank
starts recharging. -/
theorem recharge_state_machine_w :
    (PhysicsBody.update { g0 with fuel := 100 } ((1:ℚ)/60) ⟨false, false⟩).jetActive
        = false ∧
      (PhysicsBody.update { g0 with fuel := 100 } ((1:ℚ)/60)
        ⟨false, false⟩).isRecharging = true := by
  have h := recharge_state_machine { g0 with fuel := 100 } ((1:ℚ)/60)
    ⟨false, false⟩ (Or.inl rfl)
  refine ⟨h.1, ?_⟩
  have hs := (h.2.1).mpr
    ⟨rfl, by norm_num [g0, PHYSICS.FUEL_MAX],
      Or.inr (by norm_num [g0, PHYSICS.FUEL_MAX])⟩
  exact hs.1

/-! ### Projectile simulator -/

/-- Spawn configuration, embedding ProjectileConfig from Projectile.ts;
optional fields are Option-valued.  The source normalizes initialVelocity
(an irrational square root in general) before scaling it by speed; the
embedding therefore takes initialVelocity as the already-normalized aim
direction, which is exact for the unit-direction spawns considered here. -/
structure ProjectileConfig where
  initialPosition : Vec3
  initialVelocity : Vec3
  gravity : Option ℚ
  lifetime : Option ℚ
  speed : Option ℚ
  size : Option ℚ
deriving DecidableEq, Repr

/-- JavaScript `config.field || default` on numbers: the default applies when
the field is absent and also when it is zero (zero is falsy). -/
def orDefault (v : Option ℚ) (d : ℚ) : ℚ :=
  match v with
  | none => d
  | some s => if s = 0 then d else s

/-- One ballistic projectile, embedding the Projectile class fields. -/
structure Projectile where
  position : Vec3
  velocity : Vec3
  gravity : ℚ
  lifetime : ℚ
  maxLifetime : ℚ
  size : ℚ
  active : Bool
deriving DecidableEq, Repr

/-- Projectile constructor: velocity is the (unit) aim direction scaled by
speed; speed, lifetime and size default through `||` (so zero is replaced),
gravity through `??` (only an absent value is replaced, by five percent of
the global gravity). -/
def mkProjectile (config : ProjectileConfig) : Projectile :=
  let speed := orDefault config.speed 30
  let maxLifetime := orDefault config.lifetime 3
  { position := config.initialPosition
    velocity := ⟨config.initialVelocity.x * speed,
                 config.initialVelocity.y * speed,
                 config.initialVelocity.z * speed⟩
    gravity := config.gravity.getD (PHYSICS.GRAVITY * (5/100))
    lifetime := maxLifetime
    maxLifetime := maxLifetime
    size := orDefault config.size (1/5)
    active := true }

/-- Projectile.update: no-op on an inactive projectile; otherwise age the
lifetime (deactivating on expiry before any integration), apply gravity,
integrate the position, and deactivate on ground impact with the height
snapped to groundY + size/2.  Returns the new state and the boolean the
source method returns. -/
def Projectile.update (p : Projectile) (deltaTime : ℚ) : Projectile × Bool :=
  if p.active = false then (p, false)
  else
    let lifetime1 := p.lifetime - deltaTime
    if lifetime1 ≤ 0 then ({ p with lifetime := lifetime1, active := false }, false)
    else
      let vy := p.velocity.y + p.gravity * deltaTime
      let px := p.position.x + p.velocity.x * deltaTime
      let py := p.position.y + vy * deltaTime
      let pz := p.position.z + p.velocity.z * deltaTime
      if py ≤ PHYSICS.GROUND_Y + p.size / 2 then
        ({ p with position := ⟨px, PHYSICS.GROUND_Y + p.size / 2, pz⟩
                  velocity := { p.velocity with y := vy }
                  lifetime := lifetime1
                  active := false }, false)
      else
        ({ p with position := ⟨px, py, pz⟩
                  velocity := { p.velocity with y := vy }
                  lifetime := lifetime1 }, true)

/-- Projectile.deactivate. -/
def Projectile.deactivate (p : Projectile) : Projectile :=
  { p with active := false }

/-- Repeated Projectile.update over a list of deltaTimes. -/
def runProjectile (p : Projectile) (dts : List ℚ) : Projectile :=
  dts.foldl (fun q d => (Projectile.update q d).1) p

lemma update_inactive (p : Projectile) (d : ℚ) (h : p.active = false) :
    Projectile.update p d = (p, false) := by
  rw [Projectile.update, if_pos h]

lemma runProjectile_inactive (p : Projectile) (dts : List ℚ)
    (h : p.active = false) : runProjectile p dts = p := by
  induction dts with
  | nil => rfl
  | cons d rest ih =>
      show runProjectile (Projectile.update p d).1 rest = p
      rw [update_inactive p d h]
      exact ih

lemma update_active_lifetime (p : Projectile) (d : ℚ)
    (h : (Projectile.update p d).1.active = true) :
    p.active = true ∧ (Projectile.update p d).1.lifetime = p.lifetime - d ∧
      0 < p.lifetime - d := by
  by_cases ha : p.active = false
  · rw [update_inactive p d ha] at h
    exact absurd (ha.symm.trans h) (by simp)
  · have ha1 : p.active = true := by simpa using ha
    refine ⟨ha1, ?_⟩
    rw [Projectile.update, if_neg (by simp [ha1])] at h ⊢
    dsimp only at h ⊢
    by_cases hl : p.lifetime - d ≤ 0
    · rw [if_pos hl] at h
      simp at h
    · rw [if_neg hl] at h ⊢
      push_neg at hl
      refine ⟨?_, hl⟩
      split_ifs at h ⊢ with hg
      all_goals first
        | rfl
        | simp at h

lemma runProjectile_active_sum (dts : List ℚ) (p : Projectile)
    (hdts : ∀ d ∈ dts, 0 < d)
    (h : (runProjectile p dts).active = true) :
    dts = [] ∨ dts.sum < p.lifetime := by
  induction dts generalizing p with
  | nil => exact Or.inl rfl
  | cons d rest ih =>
      have hstep : runProjectile p (d :: rest) =
          runProjectile (Projectile.update p d).1 rest := rfl
      rw [hstep] at h
      have h1 : (Projectile.update p d).1.active = true := by
        by_cases hq : (Projectile.update p d).1.active = false
        · rw [runProjectile_inactive _ rest hq] at h
          exact absurd (hq.symm.trans h) (by simp)
        · simpa using hq
      obtain ⟨_, hlife, hpos⟩ := update_active_lifetime p d h1
      rcases ih (Projectile.update p d).1 (fun t ht => hdts t (by simp [ht])) h with
        hnil | hlt
      · refine Or.inr ?_
        rw [hnil]
        simpa using hpos
      · refine Or.inr ?_
        rw [hlife] at hlt
        have hd : 0 < d := hdts d (by simp)
        have : (d :: rest).sum = d + rest.sum := by simp
        rw [this]
        linarith

/-- C7: a projectile spawned with an explicit positive lifetime L is inactive
after any positive-dt update sequence whose total time reaches L, and an
inactive projectile never reactivates: update on it returns the unchanged
state and false. -/
theorem projectile_lifetime_expiry (cfg : ProjectileConfig) (L : ℚ)
    (dts : List ℚ) (hL : cfg.lifetime = some L) (hLpos : 0 < L)
    (hdts : ∀ d ∈ dts, 0 < d) (hsum : L ≤ dts.sum) :
    (runProjectile (mkProjectile cfg) dts).active = false ∧
      ∀ (p : Projectile) (d : ℚ), p.active = false →
        Projectile.update p d = (p, false) := by
  refine ⟨?_, fun p d h => update_inactive p d h⟩
  have hlt : (mkProjectile cfg).lifetime = L := by
    unfold mkProjectile orDefault
    rw [hL]
    dsimp only
    rw [if_neg (ne_of_gt hLpos)]
  by_cases hact : (runProjectile (mkProjectile cfg) dts).active = true
  · rcases runProjectile_active_sum dts (mkProjectile cfg) hdts hact with hnil | hlt2
    · rw [hnil] at hsum
      simp at hsum
      linarith
    · rw [hlt] at hlt2
      linarith
  · simpa using hact

/-- Witness for C7: a 3-second projectile is dead after two 2-second ticks. -/
theorem projectile_lifetime_expiry_w :
    (runProjectile
        (mkProjectile
          { initialPosition := ⟨0, 5, 0⟩
            initialVelocity := ⟨0, -1, 0⟩
            gravity := none
            lifetime := some 3
            speed := some 50
            size := none }) [2, 2]).active = false ∧
      ∀ (p : Projectile) (d : ℚ), p.active = false →
        Projectile.update p d = (p, false) :=
  projectile_lifetime_expiry
    { initialPosition := ⟨0, 5, 0⟩
      initialVelocity := ⟨0, -1, 0⟩
      gravity := none
      lifetime := some 3
      speed := some 50
      size := none } 3 [2, 2] rfl (by norm_num)
    (by intro d hd; simp at hd; rw [hd]; norm_num)
    (by norm_num [List.sum])

/-- C8: for an active projectile strictly above the impact height
groundY + size/2 whose lifetime does not expire this tick, update deactivates
it exactly when the freshly integrated height reaches the impact height, in
which case the height is snapped to exactly groundY + size/2; in every case
the post-update height never lies strictly below the impact height. -/
theorem projectile_ground_impact (p : Projectile) (dt : ℚ)
    (hact : p.active = true) (hdt : 0 < dt) (hlife : 0 < p.lifetime - dt)
    (hvx : p.velocity.x = 0) (hvz : p.velocity.z = 0) (hvy : p.velocity.y < 0)
    (hy : PHYSICS.GROUND_Y + p.size / 2 < p.position.y) :
    (((Projectile.update p dt).1.active = false) ↔
        p.position.y + (p.velocity.y + p.gravity * dt) * dt ≤
          PHYSICS.GROUND_Y + p.size / 2) ∧
      (p.position.y + (p.velocity.y + p.gravity * dt) * dt ≤
          PHYSICS.GROUND_Y + p.size / 2 →
        (Projectile.update p dt).1.position.y = PHYSICS.GROUND_Y + p.size / 2) ∧
      PHYSICS.GROUND_Y + p.size / 2 ≤ (Projectile.update p dt).1.position.y := by
  rw [Projectile.update, if_neg (by simp [hact]), if_neg (not_le.mpr hlife)]
  dsimp only
  split_ifs with hg
  · exact ⟨by simp [hg], fun _ => rfl, le_refl _⟩
  · push_neg at hg
    refine ⟨⟨?_, ?_⟩, fun hc => absurd hc (not_le.mpr hg), le_of_lt hg⟩
    · intro hfalse
      exact absurd (hact.symm.trans hfalse) (by simp)
    · intro hc
      exact absurd hc (not_le.mpr hg)

/-- A concrete fast straight-down projectile, one fifth of a second from
ground impact. -/
def p8 : Projectile :=
  { position := ⟨0, 5, 0⟩
    velocity := ⟨0, -50, 0⟩
    gravity := -(981/800)
    lifetime := 3
    maxLifetime := 3
    size := 1/5
    active := true }

/-- Witness for C8: the concrete projectile p8 at dt = 1/5. -/
theorem projectile_ground_impact_w :
    (((Projectile.update p8 ((1:ℚ)/5)).1.active = false) ↔
        p8.position.y + (p8.velocity.y + p8.gravity * ((1:ℚ)/5)) * ((1:ℚ)/5) ≤
          PHYSICS.GROUND_Y + p8.size / 2) ∧
      (p8.position.y + (p8.velocity.y + p8.gravity * ((1:ℚ)/5)) * ((1:ℚ)/5) ≤
          PHYSICS.GROUND_Y + p8.size / 2 →
        (Projectile.update p8 ((1:ℚ)/5)).1.position.y =
          PHYSICS.GROUND_Y + p8.size / 2) ∧
      PHYSICS.GROUND_Y + p8.size / 2 ≤ (Projectile.update p8 ((1:ℚ)/5)).1.position.y :=
  projectile_ground_impact p8 ((1:ℚ)/5) rfl (by norm_num) (by norm_num [p8])
    rfl rfl (by norm_num [p8]) (by norm_num [p8, PHYSICS.GROUND_Y])

/-! ### Projectile pool -/

/-- Pool capacity, MAX_PROJECTILES from ProjectileManager.tsx. -/
def MAX_PROJECTILES : ℕ := 100

/-- Index of the first inactive projectile by linear scan from index 0,
embedding findIndex(p => !p.isActive()) (none for the -1 case). -/
def firstInactiveIdx : List Projectile → Option ℕ
  | [] => none
  | q :: rest =>
      if q.active = false then some 0
      else (firstInactiveIdx rest).map (· + 1)

/-- spawnProjectile from ProjectileManager.tsx: under capacity the new
projectile is appended; at capacity it overwrites the first inactive slot,
or slot 0 when every slot is active. -/
def spawnProjectile (pool : List Projectile) (config : ProjectileConfig) :
    List Projectile :=
  let projectile := mkProjectile config
  if MAX_PROJECTILES ≤ pool.length then
    let replaceIndex := (firstInactiveIdx pool).getD 0
    pool.set replaceIndex projectile
  else pool ++ [projectile]

lemma firstInactiveIdx_none_iff (pool : List Projectile) :
    firstInactiveIdx pool = none ↔ ∀ q ∈ pool, q.active = true := by
  induction pool with
  | nil => simp [firstInactiveIdx]
  | cons q rest ih =>
      unfold firstInactiveIdx
      split_ifs with h
      · simp [h]
      · have hq : q.active = true := by simpa using h
        simp [hq, Option.map_eq_none', ih]

lemma mem_set_self {α : Type} (l : List α) (i : ℕ) (a : α)
    (h : i < l.length) : a ∈ l.set i a := by
  induction l generalizing i with
  | nil => simp at h
  | cons b bs ih =>
      cases i with
      | zero => simp
      | succ n =>
          have hn : n < bs.length := by simpa using h
          simp only [List.set_cons_succ, List.mem_cons]
          exact Or.inr (ih n hn)

lemma firstInactiveIdx_lt_length (pool : List Projectile) (i : ℕ)
    (h : firstInactiveIdx pool = some i) : i < pool.length := by
  induction pool generalizing i with
  | nil => simp [firstInactiveIdx] at h
  | cons q rest ih =>
      unfold firstInactiveIdx at h
      split_ifs at h with hq
      · simp at h
        simp [← h]
      · rcases Option.map_eq_some'.mp h with ⟨j, hj, rfl⟩
        have := ih j hj
        simpa using Nat.succ_lt_succ this

lemma spawnProjectile_length (pool : List Projectile) (cfg : ProjectileConfig) :
    (spawnProjectile pool cfg).length =
      if MAX_PROJECTILES ≤ pool.length then pool.length else pool.length + 1 := by
  unfold spawnProjectile
  split_ifs with h <;> simp

/-- C9: the projectile pool never grows past the 100-slot capacity under any
sequence of spawns; under capacity a spawn appends, at capacity it overwrites
the first inactive slot found by linear scan (slot 0 when every slot is still
active, which is exactly when the scan finds nothing), and the newly spawned
projectile always lands in the pool, so spawning never fails. -/
theorem pool_bounded_spawn :
    (∀ (init : List Projectile) (cfgs : List ProjectileConfig),
        init.length ≤ MAX_PROJECTILES →
        (cfgs.foldl spawnProjectile init).length ≤ MAX_PROJECTILES) ∧
      (∀ (pool : List Projectile) (cfg : ProjectileConfig),
        pool.length < MAX_PROJECTILES →
        spawnProjectile pool cfg = pool ++ [mkProjectile cfg]) ∧
      (∀ (pool : List Projectile) (cfg : ProjectileConfig),
        MAX_PROJECTILES ≤ pool.length →
        (spawnProjectile pool cfg).length = pool.length ∧
          (∀ i, firstInactiveIdx pool = some i →
            spawnProjectile pool cfg = pool.set i (mkProjectile cfg)) ∧
          ((∀ q ∈ pool, q.active = true) →
            spawnProjectile pool cfg = pool.set 0 (mkProjectile cfg))) ∧
      (∀ (pool : List Projectile) (cfg : ProjectileConfig),
        pool ≠ [] ∨ pool.length < MAX_PROJECTILES →
        mkProjectile cfg ∈ spawnProjectile pool cfg) := by
  refine ⟨?_, ?_, ?_, ?_⟩
  · intro init cfgs hinit
    induction cfgs generalizing init with
    | nil => exact hinit
    | cons c rest ih =>
        refine ih (spawnProjectile init c) ?_
        rw [spawnProjectile_length]
        split_ifs with h
        · exact hinit
        · push_neg at h
          exact h
  · intro pool cfg h
    unfold spawnProjectile
    rw [if_neg (not_le.mpr h)]
  · intro pool cfg h
    refine ⟨by rw [spawnProjectile_length, if_pos h], ?_, ?_⟩
    · intro i hi
      unfold spawnProjectile
      rw [if_pos h]
      dsimp only
      rw [hi]
      rfl
    · intro hall
      unfold spawnProjectile
      rw [if_pos h]
      dsimp only
      rw [(firstInactiveIdx_none_iff pool).mpr hall]
      rfl
  · intro pool cfg h
    unfold spawnProjectile
    split_ifs with hcap
    · dsimp only
      rcases hfi : firstInactiveIdx pool with _ | i
      · refine mem_set_self pool 0 (mkProjectile cfg) ?_
        rcases h with h | h
        · exact List.length_pos.mpr h
        · exact absurd hcap (not_le.mpr h)
      · exact mem_set_self pool i (mkProjectile cfg)
          (firstInactiveIdx_lt_length pool i hfi)
    · simp

/-- A concrete spawn configuration used by witnesses. -/
def cfg9 : ProjectileConfig :=
  { initialPosition := ⟨0, 5, 0⟩
    initialVelocity := ⟨0, 0, 1⟩
    gravity := none
    lifetime := none
    speed := some 50
    size := none }

/-- Witness for C9: two spawns into an empty pool stay within capacity and
behave as appends. -/
theorem pool_bounded_spawn_w :
    (([cfg9, cfg9].foldl spawnProjectile []).length ≤ MAX_PROJECTILES) ∧
      spawnProjectile [] cfg9 = [] ++ [mkProjectile cfg9] ∧
      mkProjectile cfg9 ∈ spawnProjectile [] cfg9 :=
  ⟨pool_bounded_spawn.1 [] [cfg9, cfg9] (by simp [MAX_PROJECTILES]),
   pool_bounded_spawn.2.1 [] cfg9 (by simp [MAX_PROJECTILES]),
   pool_bounded_spawn.2.2.2 [] cfg9 (Or.inr (by simp [MAX_PROJECTILES]))⟩

/-- C10: in the projectile constructor, speed, lifetime and size default
through JavaScript `||`, so an explicit zero is replaced by the default (30,
3.0 and 0.2 respectively) just as an omitted value is, whereas gravity uses
`??`, so an explicit zero gravity is honored and only an omitted gravity
falls back to five percent of the global gravity constant. -/
theorem projectile_constructor_defaults (cfg : ProjectileConfig) :
    (cfg.speed = some 0 ∨ cfg.speed = none →
        (mkProjectile cfg).velocity =
          ⟨cfg.initialVelocity.x * 30, cfg.initialVelocity.y * 30,
            cfg.initialVelocity.z * 30⟩) ∧
      (cfg.lifetime = some 0 ∨ cfg.lifetime = none →
        (mkProjectile cfg).maxLifetime = 3) ∧
      (cfg.size = some 0 ∨ cfg.size = none →
        (mkProjectile cfg).size = 1/5) ∧
      (cfg.gravity = some 0 → (mkProjectile cfg).gravity = 0) ∧
      (cfg.gravity = none →
        (mkProjectile cfg).gravity = PHYSICS.GRAVITY * (5/100)) := by
  refine ⟨?_, ?_, ?_, ?_, ?_⟩
  · intro h
    unfold mkProjectile orDefault
    rcases h with h | h <;> rw [h] <;> simp
  · intro h
    unfold mkProjectile orDefault
    rcases h with h | h <;> rw [h] <;> simp
  · intro h
    unfold mkProjectile orDefault
    rcases h with h | h <;> rw [h] <;> simp
  · intro h
    unfold mkProjectile
    rw [h]
    rfl
  · intro h
    unfold mkProjectile
    rw [h]
    rfl

/-- Witness for C10: a config with explicit zero speed, lifetime, size and
gravity gets the three `||` defaults but keeps the zero gravity, and a config
omitting gravity gets the reduced-gravity default. -/
theorem projectile_constructor_defaults_w :
    ((mkProjectile
        { initialPosition := ⟨0, 0, 0⟩, initialVelocity := ⟨0, -1, 0⟩
          gravity := some 0, lifetime := some 0, speed := some 0
          size := some 0 }).velocity =
      ⟨(0:ℚ) * 30, (-1:ℚ) * 30, (0:ℚ) * 30⟩) ∧
      (mkProjectile
        { initialPosition := ⟨0, 0, 0⟩, initialVelocity := ⟨0, -1, 0⟩
          gravity := some 0, lifetime := some 0, speed := some 0
          size := some 0 }).maxLifetime = 3 ∧
      (mkProjectile
        { initialPosition := ⟨0, 0, 0⟩, initialVelocity := ⟨0, -1, 0⟩
          gravity := some 0, lifetime := some 0, speed := some 0
          size := some 0 }).size = 1/5 ∧
      (mkProjectile
        { initialPosition := ⟨0, 0, 0⟩, initialVelocity := ⟨0, -1, 0⟩
          gravity := some 0, lifetime := some 0, speed := some 0
          size := some 0 }).gravity = 0 ∧
      (mkProjectile cfg9).gravity = PHYSICS.GRAVITY * (5/100) :=
  ⟨(projectile_constructor_defaults _).1 (Or.inl rfl),
   (projectile_constructor_defaults _).2.1 (Or.inl rfl),
   (projectile_constructor_defaults _).2.2.1 (Or.inl rfl),
   (projectile_constructor_defaults _).2.2.2.1 rfl,
   (projectile_constructor_defaults cfg9).2.2.2.2 rfl⟩
